import Mathlib

/-!
Verification of the Penguin Daycare Simulator backend (Go, package `app`).

The repository holds two variants of the same single-file server:
`src/unnamed/part_000` (RWMutex; handlers log datastore put errors) and
`src/app/app.go` (plain Mutex held by `penguinsHandler` around the whole
refresh; put errors silently discarded).  The shared logic — the penguin
roster, the TTL-based cache refresh `updatePenguinsStatistics`, the force
update `updateHandler`, the three stat handlers and the datastore access
`dbGetPenguin` / `penguinExists` — is embedded below.  Where the two
variants differ (lock placement, error logging) both are modelled and the
difference is made explicit.

Modelling conventions:
  - Go `time.Time` values are instants in nanoseconds (`Int`), matching
    `time.Duration`; `time.Minute = 60e9` ns.  `time.Since(t)` at instant
    `now` is `now - t`.
  - The App Engine datastore is an association list from string keys to
    `penguinEntity` records; `datastore.Get` returns the stored record or
    fails when the key is absent; `datastore.Put` overwrites or inserts.
    A put that fails at the datastore leaves the store unchanged; whether a
    given put succeeds is an oracle boolean passed to the handler.
  - Handlers return the new server state, the list of `c.Errorf` log lines
    they emitted, and the bytes written to the HTTP response.
  - Lock usage is modelled by an event trace: each run of the refresh code
    emits the sequence of observable actions (staleness check, lock
    acquire/release, timestamp write, datastore fetch, counter overwrite),
    and a marking function pairs every event with whether the exclusive
    lock is held at the moment it executes.
-/

/-- One element of the `penguins` slice (Go struct `penguin`). -/
structure Penguin where
  id : String
  name : String
  bio : String
  visitCount : Int
  fishCount : Int
  bellyrubCount : Int
deriving DecidableEq, Repr

/-- A datastore record (Go struct `penguinEntity`). -/
structure PenguinEntity where
  id : String
  visitCount : Int
  fishCount : Int
  bellyrubCount : Int
deriving DecidableEq, Repr

/-- The App Engine datastore, keyed by the string id used in
`datastore.NewKey(c, "Entity", id, 0, nil)`. -/
abbrev Db := List (String × PenguinEntity)

/-- `datastore.Get`: the stored record for a key, if any. -/
def dbLookup : Db → String → Option PenguinEntity
  | [], _ => none
  | (k, v) :: rest, id => if k = id then some v else dbLookup rest id

/-- `datastore.Put`: overwrite the record under a key, inserting if absent. -/
def dbPut : Db → String → PenguinEntity → Db
  | [], id, r => [(id, r)]
  | (k, v) :: rest, id, r =>
      if k = id then (id, r) :: rest else (k, v) :: dbPut rest id r

/-- Nanoseconds in one minute (`time.Minute`). -/
def nsPerMinute : Int := 60000000000

/-- The mutable server state: the `penguins` slice, the `lastUpdateTime`
timestamp and the backing datastore. -/
structure ServerState where
  penguins : List Penguin
  lastUpdateTime : Int
  db : Db
deriving DecidableEq, Repr

/-- `dbGetPenguin`: read a record from the DB; if `datastore.Get` fails
(no record under the key), return the zero struct with `Id` set to the
requested id. -/
def dbGetPenguin (db : Db) (id : String) : PenguinEntity :=
  match dbLookup db id with
  | some p => p
  | none => { id := id, visitCount := 0, fishCount := 0, bellyrubCount := 0 }

/-- `penguinExists`: linear scan of the `penguins` slice for a matching
`Id` (with early break on the first hit). -/
def penguinExists (penguins : List Penguin) (id : String) : Bool :=
  penguins.any (fun p => p.id = id)

/-- The body of one iteration of the refresh loop in
`updatePenguinsStatistics`: overwrite the three counters of a roster
element with the values read from the DB for its id. -/
def applyDbCounters (db : Db) (p : Penguin) : Penguin :=
  let penguin_db := dbGetPenguin db p.id
  { p with
      visitCount := penguin_db.visitCount
      fishCount := penguin_db.fishCount
      bellyrubCount := penguin_db.bellyrubCount }

/-- `updatePenguinsStatistics` (same state transition in both variants):
return unchanged if at most 10 minutes passed since `lastUpdateTime`;
otherwise set `lastUpdateTime = now` and overwrite every roster element's
counters from the DB. -/
def updatePenguinsStatistics (now : Int) (s : ServerState) : ServerState :=
  if now - s.lastUpdateTime ≤ 10 * nsPerMinute then s
  else
    { s with
        lastUpdateTime := now
        penguins := s.penguins.map (applyDbCounters s.db) }

/-- `updateHandler`: rewind `lastUpdateTime` to 20 minutes before now. -/
def updateHandler (now : Int) (s : ServerState) : ServerState :=
  { s with lastUpdateTime := now - 20 * nsPerMinute }

/-- What a stat handler run produces: the new server state, the `c.Errorf`
log lines emitted, and the bytes written to the `http.ResponseWriter`. -/
structure HandlerResult where
  state : ServerState
  logs : List String
  body : String
deriving DecidableEq, Repr

/-- `visitHandler` of `src/unnamed/part_000`: if the id is in the roster,
read its DB record, add 1 to `VisitCount` and put it back; a failed put is
logged via `c.Errorf`.  Nothing is ever written to the response.  `putOk`
is the oracle for whether `datastore.Put` succeeds. -/
def visitHandler (id : String) (putOk : Bool) (s : ServerState) : HandlerResult :=
  if penguinExists s.penguins id then
    let penguin_db := dbGetPenguin s.db id
    let penguin_db := { penguin_db with visitCount := penguin_db.visitCount + 1 }
    if putOk then
      { state := { s with db := dbPut s.db id penguin_db }, logs := [], body := "" }
    else
      { state := s, logs := ["Error writing into the datastore"], body := "" }
  else
    { state := s, logs := [], body := "" }

/-- `fishHandler` of `src/unnamed/part_000`: same shape as `visitHandler`,
incrementing `FishCount`. -/
def fishHandler (id : String) (putOk : Bool) (s : ServerState) : HandlerResult :=
  if penguinExists s.penguins id then
    let penguin_db := dbGetPenguin s.db id
    let penguin_db := { penguin_db with fishCount := penguin_db.fishCount + 1 }
    if putOk then
      { state := { s with db := dbPut s.db id penguin_db }, logs := [], body := "" }
    else
      { state := s, logs := ["Error writing into the datastore"], body := "" }
  else
    { state := s, logs := [], body := "" }

/-- `bellyrubHandler` of `src/unnamed/part_000`: same shape as
`visitHandler`, incrementing `BellyrubCount`. -/
def bellyrubHandler (id : String) (putOk : Bool) (s : ServerState) : HandlerResult :=
  if penguinExists s.penguins id then
    let penguin_db := dbGetPenguin s.db id
    let penguin_db := { penguin_db with bellyrubCount := penguin_db.bellyrubCount + 1 }
    if putOk then
      { state := { s with db := dbPut s.db id penguin_db }, logs := [], body := "" }
    else
      { state := s, logs := ["Error writing into the datastore"], body := "" }
  else
    { state := s, logs := [], body := "" }

/-! ### Event traces and lock discipline

The observable actions performed by the refresh code, in program order. -/

/-- One observable action of the refresh path. -/
inductive Event where
  /-- Read `lastUpdateTime` and compare `time.Since` with the TTL. -/
  | checkStale : Event
  /-- Acquire the exclusive (write) mode of the mutex. -/
  | lockAcquire : Event
  /-- Release the exclusive (write) mode of the mutex. -/
  | lockRelease : Event
  /-- Write `lastUpdateTime = time.Now()`. -/
  | setLastUpdate : Event
  /-- `dbGetPenguin`: a round-trip to the Persistence Gateway. -/
  | fetch (id : String) : Event
  /-- Overwrite one roster element's three counters in place. -/
  | applyCounters (id : String) : Event
deriving DecidableEq, Repr

/-- The actions of the refresh loop body, one fetch and one counter
overwrite per roster element, in roster order. -/
def refreshLoopTrace : List Penguin → List Event
  | [] => []
  | p :: ps => Event.fetch p.id :: Event.applyCounters p.id :: refreshLoopTrace ps

/-- Program-order trace of `updatePenguinsStatistics` in
`src/unnamed/part_000`: the staleness check runs first; only afterwards is
the write lock taken (`mutex.Lock()`), the timestamp written, the loop
run, and the lock released by the deferred `mutex.Unlock()`. -/
def updatePenguinsStatisticsTrace (now : Int) (s : ServerState) : List Event :=
  if now - s.lastUpdateTime ≤ 10 * nsPerMinute then
    [Event.checkStale]
  else
    Event.checkStale :: Event.lockAcquire :: Event.setLastUpdate ::
      (refreshLoopTrace s.penguins ++ [Event.lockRelease])

/-- Program-order trace of `updatePenguinsStatistics` in `src/app/app.go`,
which takes no lock of its own. -/
def updateTraceApp (now : Int) (s : ServerState) : List Event :=
  if now - s.lastUpdateTime ≤ 10 * nsPerMinute then
    [Event.checkStale]
  else
    Event.checkStale :: Event.setLastUpdate :: refreshLoopTrace s.penguins

/-- Program-order trace of the refresh portion of `penguinsHandler` in
`src/app/app.go`: `mutex.Lock()` is taken before
`updatePenguinsStatistics(c)` is called and released (deferred) after. -/
def penguinsHandlerTraceApp (now : Int) (s : ServerState) : List Event :=
  Event.lockAcquire :: (updateTraceApp now s ++ [Event.lockRelease])

/-- Lock state after executing one event. -/
def nextHeld (held : Bool) : Event → Bool
  | Event.lockAcquire => true
  | Event.lockRelease => false
  | _ => held

/-- Pair each event of a trace with whether the exclusive lock is held at
the moment the event executes, given whether it is held on entry.  The
acquire itself executes before the lock is held; the release executes
while it is still held. -/
def markHeld : Bool → List Event → List (Event × Bool)
  | _, [] => []
  | held, e :: es => (e, held) :: markHeld (nextHeld held e) es

/-- Whether an event is a Persistence Gateway fetch. -/
def isFetch : Event → Bool
  | Event.fetch _ => true
  | _ => false

/-- Number of Persistence Gateway fetches in a trace. -/
def fetchCount (es : List Event) : Nat := (es.filter isFetch).length

/-- Whether an event mutates shared roster state (the timestamp write or a
counter overwrite). -/
def isRosterWrite : Event → Bool
  | Event.setLastUpdate => true
  | Event.applyCounters _ => true
  | _ => false

/-! ### Helper lemmas -/

theorem dbLookup_dbPut_self (db : Db) (id : String) (r : PenguinEntity) :
    dbLookup (dbPut db id r) id = some r := by
  induction db with
  | nil => simp [dbPut, dbLookup]
  | cons kv rest ih =>
      obtain ⟨k, v⟩ := kv
      by_cases h : k = id
      · simp [dbPut, dbLookup, h]
      · simp [dbPut, dbLookup, h, ih]

theorem fetchCount_refreshLoopTrace (ps : List Penguin) :
    fetchCount (refreshLoopTrace ps) = ps.length := by
  induction ps with
  | nil => rfl
  | cons p ps ih =>
      simp [refreshLoopTrace, fetchCount, isFetch, List.filter] at ih ⊢
      exact ih

theorem fetchCount_le_length (now : Int) (s : ServerState) :
    fetchCount (updatePenguinsStatisticsTrace now s) ≤ s.penguins.length := by
  unfold updatePenguinsStatisticsTrace
  by_cases h : now - s.lastUpdateTime ≤ 10 * nsPerMinute
  · simp [h, fetchCount, isFetch, List.filter]
  · simp [h, fetchCount, isFetch, List.filter, List.filter_append]
    have := fetchCount_refreshLoopTrace s.penguins
    simp [fetchCount] at this
    omega

theorem nextHeld_of_no_lock (held : Bool) (e : Event)
    (h1 : e ≠ Event.lockAcquire) (h2 : e ≠ Event.lockRelease) :
    nextHeld held e = held := by
  cases e with
  | lockAcquire => exact absurd rfl h1
  | lockRelease => exact absurd rfl h2
  | checkStale => rfl
  | setLastUpdate => rfl
  | fetch id => rfl
  | applyCounters id => rfl

theorem markHeld_no_lock_events (held : Bool) (es : List Event)
    (h : ∀ e ∈ es, e ≠ Event.lockAcquire ∧ e ≠ Event.lockRelease) :
    ∀ p ∈ markHeld held es, p.2 = held := by
  induction es with
  | nil => intro p hp; simp [markHeld] at hp
  | cons e es ih =>
      intro p hp
      obtain ⟨h1, h2⟩ := h e (by simp)
      simp only [markHeld, List.mem_cons] at hp
      rcases hp with rfl | hp
      · rfl
      · rw [nextHeld_of_no_lock held e h1 h2] at hp
        exact ih (fun e' he' => h e' (by simp [he'])) p hp

theorem refreshLoopTrace_no_lock_events (ps : List Penguin) :
    ∀ e ∈ refreshLoopTrace ps, e ≠ Event.lockAcquire ∧ e ≠ Event.lockRelease := by
  induction ps with
  | nil => intro e he; simp [refreshLoopTrace] at he
  | cons p ps ih =>
      intro e he
      simp only [refreshLoopTrace, List.mem_cons] at he
      rcases he with rfl | rfl | he
      · simp
      · simp
      · exact ih e he

theorem markHeld_loop_release (ps : List Penguin) :
    ∀ p ∈ markHeld true (refreshLoopTrace ps ++ [Event.lockRelease]), p.2 = true := by
  induction ps with
  | nil =>
      intro p hp
      simp only [refreshLoopTrace, List.nil_append, markHeld, List.mem_singleton] at hp
      rw [hp]
  | cons q ps ih =>
      intro p hp
      simp only [refreshLoopTrace, List.cons_append, markHeld, nextHeld,
        List.mem_cons] at hp
      rcases hp with rfl | rfl | hp
      · rfl
      · rfl
      · exact ih p hp

/-! ### Claim theorems -/

/-- A concrete roster element used in witnesses and scenarios. -/
def pingu : Penguin :=
  { id := "p1", name := "Pingu", bio := "", visitCount := 0
    fishCount := 0, bellyrubCount := 0 }

/-- A concrete server state used in witnesses and scenarios: the roster
holds exactly `pingu`, and the datastore is empty. -/
def scenarioState : ServerState :=
  { penguins := [pingu], lastUpdateTime := 0, db := [] }

/-- C1: `updatePenguinsStatistics` is a no-op within the TTL: if at most
10 minutes elapsed since `lastUpdateTime`, the state is unchanged and no
Persistence Gateway fetch happens; and two calls whose times are within
one 10-minute window of each other perform at most one reconciliation pass
(at most one fetch per roster element in total). -/
theorem updatePenguinsStatistics_ttl_noop (s : ServerState) (t1 t2 : Int) :
    (t1 - s.lastUpdateTime ≤ 10 * nsPerMinute →
      updatePenguinsStatistics t1 s = s ∧
      fetchCount (updatePenguinsStatisticsTrace t1 s) = 0) ∧
    (t2 - t1 ≤ 10 * nsPerMinute →
      fetchCount (updatePenguinsStatisticsTrace t1 s) +
        fetchCount (updatePenguinsStatisticsTrace t2 (updatePenguinsStatistics t1 s)) ≤
        s.penguins.length) := by
  constructor
  · intro h
    constructor
    · simp [updatePenguinsStatistics, h]
    · simp [updatePenguinsStatisticsTrace, h, fetchCount, isFetch, List.filter]
  · intro h
    by_cases h1 : t1 - s.lastUpdateTime ≤ 10 * nsPerMinute
    · have e1 : fetchCount (updatePenguinsStatisticsTrace t1 s) = 0 := by
        simp [updatePenguinsStatisticsTrace, h1, fetchCount, isFetch, List.filter]
      have e2 : updatePenguinsStatistics t1 s = s := by
        simp [updatePenguinsStatistics, h1]
      rw [e1, e2]
      simpa using fetchCount_le_length t2 s
    · have e2 : (updatePenguinsStatistics t1 s).lastUpdateTime = t1 := by
        simp [updatePenguinsStatistics, h1]
      have h2 : t2 - (updatePenguinsStatistics t1 s).lastUpdateTime ≤ 10 * nsPerMinute := by
        rw [e2]; exact h
      have e3 : fetchCount (updatePenguinsStatisticsTrace t2 (updatePenguinsStatistics t1 s)) = 0 := by
        simp [updatePenguinsStatisticsTrace, h2, fetchCount, isFetch, List.filter]
      rw [e3]
      simpa using fetchCount_le_length t1 s

/-- C1 witness: at a concrete state within the TTL, the call is the
identity and fetches nothing, and two calls 5 minutes apart fetch at most
once per roster element. -/
theorem updatePenguinsStatistics_ttl_noop_witness :
    (updatePenguinsStatistics nsPerMinute scenarioState = scenarioState ∧
      fetchCount (updatePenguinsStatisticsTrace nsPerMinute scenarioState) = 0) ∧
    fetchCount (updatePenguinsStatisticsTrace nsPerMinute scenarioState) +
      fetchCount (updatePenguinsStatisticsTrace (6 * nsPerMinute)
        (updatePenguinsStatistics nsPerMinute scenarioState)) ≤
      scenarioState.penguins.length := by
  have h := updatePenguinsStatistics_ttl_noop scenarioState nsPerMinute (6 * nsPerMinute)
  exact ⟨h.1 (by decide), h.2 (by decide)⟩

/-- C2: when `updatePenguinsStatistics` does refresh (more than 10 minutes
since `lastUpdateTime`), it sets `lastUpdateTime = now`, leaves the
datastore alone, and maps every roster element in place to its DB
counters: length and order are those of the original roster, each
element keeps its id, name and bio, and its three counters become the
values fetched for its id.  The trace shows the timestamp write happens
before any fetch. -/
theorem updatePenguinsStatistics_refresh (now : Int) (s : ServerState)
    (h : ¬ now - s.lastUpdateTime ≤ 10 * nsPerMinute) :
    (updatePenguinsStatistics now s).lastUpdateTime = now ∧
    (updatePenguinsStatistics now s).db = s.db ∧
    (updatePenguinsStatistics now s).penguins = s.penguins.map (applyDbCounters s.db) ∧
    (updatePenguinsStatistics now s).penguins.length = s.penguins.length ∧
    (∀ p : Penguin,
        (applyDbCounters s.db p).id = p.id ∧
        (applyDbCounters s.db p).name = p.name ∧
        (applyDbCounters s.db p).bio = p.bio ∧
        (applyDbCounters s.db p).visitCount = (dbGetPenguin s.db p.id).visitCount ∧
        (applyDbCounters s.db p).fishCount = (dbGetPenguin s.db p.id).fishCount ∧
        (applyDbCounters s.db p).bellyrubCount = (dbGetPenguin s.db p.id).bellyrubCount) ∧
    updatePenguinsStatisticsTrace now s =
      Event.checkStale :: Event.lockAcquire :: Event.setLastUpdate ::
        (refreshLoopTrace s.penguins ++ [Event.lockRelease]) := by
  refine ⟨?_, ?_, ?_, ?_, ?_, ?_⟩
  · simp [updatePenguinsStatistics, h]
  · simp [updatePenguinsStatistics, h]
  · simp [updatePenguinsStatistics, h]
  · simp [updatePenguinsStatistics, h]
  · intro p
    refine ⟨rfl, rfl, rfl, rfl, rfl, rfl⟩
  · simp [updatePenguinsStatisticsTrace, h]

/-- C2 witness: a concrete refresh 11 minutes past the timestamp, with the
per-element clause instantiated at the `pingu` roster element. -/
theorem updatePenguinsStatistics_refresh_witness :
    (updatePenguinsStatistics (11 * nsPerMinute) scenarioState).lastUpdateTime =
      11 * nsPerMinute ∧
    (updatePenguinsStatistics (11 * nsPerMinute) scenarioState).db = scenarioState.db ∧
    (updatePenguinsStatistics (11 * nsPerMinute) scenarioState).penguins =
      scenarioState.penguins.map (applyDbCounters scenarioState.db) ∧
    (applyDbCounters scenarioState.db pingu).id = pingu.id ∧
    updatePenguinsStatisticsTrace (11 * nsPerMinute) scenarioState =
      Event.checkStale :: Event.lockAcquire :: Event.setLastUpdate ::
        (refreshLoopTrace scenarioState.penguins ++ [Event.lockRelease]) := by
  have h := updatePenguinsStatistics_refresh (11 * nsPerMinute) scenarioState (by decide)
  exact ⟨h.1, h.2.1, h.2.2.1, (h.2.2.2.2.1 pingu).1, h.2.2.2.2.2⟩

/-- C3: after `updateHandler` runs at time `tf`, any later call of
`updatePenguinsStatistics` at time `tn ≥ tf` finds the state stale
(the rewound timestamp is 20 minutes in the past, beyond the 10-minute
TTL) and performs a full reconciliation pass: the timestamp becomes `tn`,
every roster element is reconciled from the DB, and one fetch per roster
element is issued. -/
theorem updateHandler_forces_refresh (s : ServerState) (tf tn : Int) (h : tf ≤ tn) :
    ¬ (tn - (updateHandler tf s).lastUpdateTime ≤ 10 * nsPerMinute) ∧
    (updatePenguinsStatistics tn (updateHandler tf s)).lastUpdateTime = tn ∧
    (updatePenguinsStatistics tn (updateHandler tf s)).penguins =
      s.penguins.map (applyDbCounters s.db) ∧
    fetchCount (updatePenguinsStatisticsTrace tn (updateHandler tf s)) =
      s.penguins.length := by
  have hstale : ¬ (tn - (updateHandler tf s).lastUpdateTime ≤ 10 * nsPerMinute) := by
    simp only [updateHandler, nsPerMinute]
    omega
  refine ⟨hstale, ?_, ?_, ?_⟩
  · simp [updatePenguinsStatistics, hstale]
  · unfold updatePenguinsStatistics
    rw [if_neg hstale]
    simp [updateHandler]
  · simp only [updatePenguinsStatisticsTrace, hstale, if_false, fetchCount,
      List.filter, List.filter_append, isFetch]
    have := fetchCount_refreshLoopTrace (updateHandler tf s).penguins
    simp only [fetchCount] at this
    simpa [updateHandler] using this

/-- C3 witness: force-refresh at minute 5 and call the refresher one
minute later; it reconciles even though only a minute elapsed. -/
theorem updateHandler_forces_refresh_witness :
    ¬ (6 * nsPerMinute -
        (updateHandler (5 * nsPerMinute) scenarioState).lastUpdateTime ≤
        10 * nsPerMinute) ∧
    (updatePenguinsStatistics (6 * nsPerMinute)
        (updateHandler (5 * nsPerMinute) scenarioState)).lastUpdateTime =
      6 * nsPerMinute ∧
    (updatePenguinsStatistics (6 * nsPerMinute)
        (updateHandler (5 * nsPerMinute) scenarioState)).penguins =
      scenarioState.penguins.map (applyDbCounters scenarioState.db) ∧
    fetchCount (updatePenguinsStatisticsTrace (6 * nsPerMinute)
        (updateHandler (5 * nsPerMinute) scenarioState)) =
      scenarioState.penguins.length :=
  updateHandler_forces_refresh scenarioState (5 * nsPerMinute) (6 * nsPerMinute)
    (by decide)

/-- C4: for an id in the roster, each handler (with a successful put)
stores under that id the previously fetched record with exactly its own
counter incremented by 1 and the other fields unchanged; and three
sequential visit-handler calls on `"p1"` starting from an empty datastore
leave `VisitCount = 3`. -/
theorem statHandlers_increment (s : ServerState) (id : String)
    (h : penguinExists s.penguins id = true) :
    dbLookup (visitHandler id true s).state.db id =
      some { dbGetPenguin s.db id with
               visitCount := (dbGetPenguin s.db id).visitCount + 1 } ∧
    dbLookup (fishHandler id true s).state.db id =
      some { dbGetPenguin s.db id with
               fishCount := (dbGetPenguin s.db id).fishCount + 1 } ∧
    dbLookup (bellyrubHandler id true s).state.db id =
      some { dbGetPenguin s.db id with
               bellyrubCount := (dbGetPenguin s.db id).bellyrubCount + 1 } ∧
    (dbGetPenguin (visitHandler "p1" true
        (visitHandler "p1" true
          (visitHandler "p1" true scenarioState).state).state).state.db
      "p1").visitCount = 3 := by
  refine ⟨?_, ?_, ?_, by decide⟩
  · simp only [visitHandler, h, if_true]
    exact dbLookup_dbPut_self s.db id _
  · simp only [fishHandler, h, if_true]
    exact dbLookup_dbPut_self s.db id _
  · simp only [bellyrubHandler, h, if_true]
    exact dbLookup_dbPut_self s.db id _

/-- C4 witness: the handlers applied at the concrete one-penguin state. -/
theorem statHandlers_increment_witness :
    dbLookup (visitHandler "p1" true scenarioState).state.db "p1" =
      some { dbGetPenguin scenarioState.db "p1" with
               visitCount := (dbGetPenguin scenarioState.db "p1").visitCount + 1 } ∧
    (dbGetPenguin (visitHandler "p1" true
        (visitHandler "p1" true
          (visitHandler "p1" true scenarioState).state).state).state.db
      "p1").visitCount = 3 := by
  have h := statHandlers_increment scenarioState "p1" (by decide)
  exact ⟨h.1, h.2.2.2⟩

/-- C5: for an id absent from the roster, `penguinExists` is false and all
three handlers are complete no-ops: the state (datastore included) is
untouched, nothing is logged, and nothing is written to the response,
whether or not a put would have succeeded. -/
theorem handlers_unknown_id_noop (s : ServerState) (id : String) (putOk : Bool)
    (h : ∀ p ∈ s.penguins, p.id ≠ id) :
    penguinExists s.penguins id = false ∧
    visitHandler id putOk s = { state := s, logs := [], body := "" } ∧
    fishHandler id putOk s = { state := s, logs := [], body := "" } ∧
    bellyrubHandler id putOk s = { state := s, logs := [], body := "" } := by
  have hex : penguinExists s.penguins id = false := by
    unfold penguinExists
    rw [List.any_eq_false]
    intro p hp
    simpa using h p hp
  refine ⟨hex, ?_, ?_, ?_⟩
  · simp [visitHandler, hex]
  · simp [fishHandler, hex]
  · simp [bellyrubHandler, hex]

/-- C5 witness: the id `"nobody"` is not in the concrete roster and the
handlers leave the state untouched, for both put outcomes. -/
theorem handlers_unknown_id_noop_witness :
    (penguinExists scenarioState.penguins "nobody" = false ∧
      visitHandler "nobody" true scenarioState =
        { state := scenarioState, logs := [], body := "" }) ∧
    bellyrubHandler "nobody" false scenarioState =
      { state := scenarioState, logs := [], body := "" } := by
  have ht := handlers_unknown_id_noop scenarioState "nobody" true (by decide)
  have hf := handlers_unknown_id_noop scenarioState "nobody" false (by decide)
  exact ⟨⟨ht.1, ht.2.1⟩, hf.2.2.2⟩

/-- C6: `dbGetPenguin` never fails the caller: it returns the stored
record when one exists, and otherwise the record with all three counters
zero and `Id` stamped with the requested id. -/
theorem dbGetPenguin_total (db : Db) (id : String) :
    (∀ r, dbLookup db id = some r → dbGetPenguin db id = r) ∧
    (dbLookup db id = none →
      dbGetPenguin db id =
        { id := id, visitCount := 0, fishCount := 0, bellyrubCount := 0 }) := by
  constructor
  · intro r hr
    unfold dbGetPenguin
    rw [hr]
  · intro hn
    unfold dbGetPenguin
    rw [hn]

/-- C6 witness: a stored record is returned as stored, and a miss on the
empty datastore yields the zero record stamped with the id. -/
theorem dbGetPenguin_total_witness :
    dbGetPenguin [("p1", { id := "p1", visitCount := 4, fishCount := 5
                           bellyrubCount := 6 })] "p1" =
      { id := "p1", visitCount := 4, fishCount := 5, bellyrubCount := 6 } ∧
    dbGetPenguin [] "p2" =
      { id := "p2", visitCount := 0, fishCount := 0, bellyrubCount := 0 } := by
  constructor
  · exact (dbGetPenguin_total
      [("p1", { id := "p1", visitCount := 4, fishCount := 5, bellyrubCount := 6 })]
      "p1").1 _ (by decide)
  · exact (dbGetPenguin_total [] "p2").2 (by decide)

/-- C7: the handlers never modify the in-memory roster or the refresh
timestamp, for every id and either put outcome; an increment becomes
visible in the roster only through a refresh pass, as the concrete
scenario shows: after a visit the roster still reads 0 until
`updatePenguinsStatistics` runs past the TTL. -/
theorem statHandlers_preserve_roster (s : ServerState) (id : String) (putOk : Bool) :
    (visitHandler id putOk s).state.penguins = s.penguins ∧
    (fishHandler id putOk s).state.penguins = s.penguins ∧
    (bellyrubHandler id putOk s).state.penguins = s.penguins ∧
    (visitHandler id putOk s).state.lastUpdateTime = s.lastUpdateTime ∧
    (fishHandler id putOk s).state.lastUpdateTime = s.lastUpdateTime ∧
    (bellyrubHandler id putOk s).state.lastUpdateTime = s.lastUpdateTime ∧
    (visitHandler "p1" true scenarioState).state.penguins = [pingu] ∧
    (updatePenguinsStatistics (11 * nsPerMinute)
        (visitHandler "p1" true scenarioState).state).penguins =
      [{ pingu with visitCount := 1 }] := by
  refine ⟨?_, ?_, ?_, ?_, ?_, ?_, by decide, by decide⟩ <;>
    · first
      | (unfold visitHandler; split <;> (try split) <;> rfl)
      | (unfold fishHandler; split <;> (try split) <;> rfl)
      | (unfold bellyrubHandler; split <;> (try split) <;> rfl)

/-- C9 (part_000 variant): when the datastore put fails during an
increment for a roster id, the handler logs one error line via `c.Errorf`,
writes nothing to the response, and leaves the whole state (datastore and
roster) exactly as it was. -/
theorem putFailure_logged_no_visible_error (s : ServerState) (id : String)
    (h : penguinExists s.penguins id = true) :
    visitHandler id false s =
      { state := s, logs := ["Error writing into the datastore"], body := "" } ∧
    fishHandler id false s =
      { state := s, logs := ["Error writing into the datastore"], body := "" } ∧
    bellyrubHandler id false s =
      { state := s, logs := ["Error writing into the datastore"], body := "" } := by
  refine ⟨?_, ?_, ?_⟩
  · simp [visitHandler, h]
  · simp [fishHandler, h]
  · simp [bellyrubHandler, h]

/-- C9 witness: a failed put for the concrete roster id `"p1"`. -/
theorem putFailure_logged_no_visible_error_witness :
    visitHandler "p1" false scenarioState =
      { state := scenarioState, logs := ["Error writing into the datastore"]
        body := "" } :=
  (putFailure_logged_no_visible_error scenarioState "p1" (by decide)).1

theorem updateTraceApp_no_lock_events (now : Int) (s : ServerState) :
    ∀ e ∈ updateTraceApp now s,
      e ≠ Event.lockAcquire ∧ e ≠ Event.lockRelease := by
  intro e he
  unfold updateTraceApp at he
  by_cases hst : now - s.lastUpdateTime ≤ 10 * nsPerMinute
  · rw [if_pos hst] at he
    simp only [List.mem_singleton] at he
    simp [he]
  · rw [if_neg hst] at he
    simp only [List.mem_cons] at he
    rcases he with rfl | rfl | he
    · simp
    · simp
    · exact refreshLoopTrace_no_lock_events s.penguins e he

theorem markHeld_true_append_release (es : List Event)
    (h : ∀ e ∈ es, e ≠ Event.lockAcquire ∧ e ≠ Event.lockRelease) :
    ∀ p ∈ markHeld true (es ++ [Event.lockRelease]), p.2 = true := by
  induction es with
  | nil =>
      intro p hp
      simp only [List.nil_append, markHeld, List.mem_singleton] at hp
      rw [hp]
  | cons e es ih =>
      intro p hp
      obtain ⟨h1, h2⟩ := h e (by simp)
      simp only [List.cons_append, markHeld, List.mem_cons] at hp
      rcases hp with rfl | hp
      · rfl
      · rw [nextHeld_of_no_lock true e h1 h2] at hp
        exact ih (fun e' he' => h e' (by simp [he'])) p hp

/-- C8 counterexample: in `updatePenguinsStatistics` of
`src/unnamed/part_000` the staleness check on `lastUpdateTime` is executed
before `mutex.Lock()` is taken, so the first event of a concrete stale run
is the check with the exclusive lock not held — the entire refresh, check
included, is not under the lock. -/
theorem refresh_check_outside_lock :
    (markHeld false
        (updatePenguinsStatisticsTrace (11 * nsPerMinute) scenarioState)).head? =
      some (Event.checkStale, false) ∧
    ¬ ∀ p ∈ markHeld false
        (updatePenguinsStatisticsTrace (11 * nsPerMinute) scenarioState),
        p.2 = true := by
  constructor
  · decide
  · decide

/-- C8 amended: in `src/unnamed/part_000`, every event that mutates shared
roster state (the `lastUpdateTime` write and every in-place counter
overwrite) and every Persistence Gateway fetch of the refresh executes
while the exclusive lock is held — only the staleness check precedes the
acquisition; in `src/app/app.go`, `penguinsHandler` holds its mutex across
the whole `updatePenguinsStatistics` call, so there every event including
the staleness check runs with the lock held. -/
theorem refresh_lock_discipline (now : Int) (s : ServerState) :
    (∀ p ∈ markHeld false (updatePenguinsStatisticsTrace now s),
        isRosterWrite p.1 = true → p.2 = true) ∧
    (∀ p ∈ markHeld false (updatePenguinsStatisticsTrace now s),
        isFetch p.1 = true → p.2 = true) ∧
    (∀ p ∈ markHeld false (penguinsHandlerTraceApp now s),
        p.1 ≠ Event.lockAcquire → p.2 = true) := by
  refine ⟨?_, ?_, ?_⟩
  · intro p hp hw
    by_cases hst : now - s.lastUpdateTime ≤ 10 * nsPerMinute
    · simp only [updatePenguinsStatisticsTrace, if_pos hst, markHeld,
        List.mem_singleton] at hp
      rw [hp] at hw
      simp [isRosterWrite] at hw
    · simp only [updatePenguinsStatisticsTrace, if_neg hst, markHeld, nextHeld,
        List.mem_cons] at hp
      rcases hp with rfl | rfl | rfl | hp
      · simp [isRosterWrite] at hw
      · simp [isRosterWrite] at hw
      · rfl
      · exact markHeld_loop_release s.penguins p hp
  · intro p hp hw
    by_cases hst : now - s.lastUpdateTime ≤ 10 * nsPerMinute
    · simp only [updatePenguinsStatisticsTrace, if_pos hst, markHeld,
        List.mem_singleton] at hp
      rw [hp] at hw
      simp [isFetch] at hw
    · simp only [updatePenguinsStatisticsTrace, if_neg hst, markHeld, nextHeld,
        List.mem_cons] at hp
      rcases hp with rfl | rfl | rfl | hp
      · simp [isFetch] at hw
      · simp [isFetch] at hw
      · rfl
      · exact markHeld_loop_release s.penguins p hp
  · intro p hp hne
    simp only [penguinsHandlerTraceApp, markHeld, nextHeld, List.mem_cons] at hp
    rcases hp with rfl | hp
    · exact absurd rfl hne
    · exact markHeld_true_append_release (updateTraceApp now s)
        (updateTraceApp_no_lock_events now s) p hp

/-- C8 amended witness: at a concrete stale run, the `lastUpdateTime`
write, a fetch, and (in the app.go handler trace) the staleness check all
execute with the lock held. -/
theorem refresh_lock_discipline_witness :
    (((Event.setLastUpdate, true) : Event × Bool).2 = true ∧
      ((Event.fetch "p1", true) : Event × Bool).2 = true) ∧
    ((Event.checkStale, true) : Event × Bool).2 = true := by
  have h := refresh_lock_discipline (11 * nsPerMinute) scenarioState
  exact ⟨⟨h.1 (Event.setLastUpdate, true) (by decide) (by decide),
          h.2.1 (Event.fetch "p1", true) (by decide) (by decide)⟩,
         h.2.2 (Event.checkStale, true) (by decide) (by decide)⟩

/-! ### Reachable datastore states (for the key/id invariant) -/

/-- The operations that can hit the server after startup: the three stat
endpoints (with the put-success oracle), the cache refresh performed by
`/penguins`, and the force update `/update`. -/
inductive Op where
  | visit (id : String) (putOk : Bool) : Op
  | fish (id : String) (putOk : Bool) : Op
  | bellyrub (id : String) (putOk : Bool) : Op
  | refresh (now : Int) : Op
  | forceUpdate (now : Int) : Op

/-- The state transition of one operation. -/
def applyOp : Op → ServerState → ServerState
  | Op.visit id ok, s => (visitHandler id ok s).state
  | Op.fish id ok, s => (fishHandler id ok s).state
  | Op.bellyrub id ok, s => (bellyrubHandler id ok s).state
  | Op.refresh now, s => updatePenguinsStatistics now s
  | Op.forceUpdate now, s => updateHandler now s

/-- States reachable from startup (`init` loads the roster, rewinds
`lastUpdateTime` by 20 minutes, and faces an empty datastore) by any
sequence of operations. -/
inductive Reachable (roster : List Penguin) (t0 : Int) : ServerState → Prop
  | init : Reachable roster t0
      { penguins := roster, lastUpdateTime := t0 - 20 * nsPerMinute, db := [] }
  | step (s : ServerState) (op : Op) :
      Reachable roster t0 s → Reachable roster t0 (applyOp op s)

/-- Every stored record's `Id` field equals the key it is stored under. -/
def DbWellKeyed (db : Db) : Prop :=
  ∀ k r, dbLookup db k = some r → r.id = k

theorem dbGetPenguin_id (db : Db) (h : DbWellKeyed db) (id : String) :
    (dbGetPenguin db id).id = id := by
  unfold dbGetPenguin
  cases hl : dbLookup db id with
  | none => rfl
  | some r => exact h id r hl

theorem dbLookup_dbPut (db : Db) (id k : String) (r : PenguinEntity) :
    dbLookup (dbPut db id r) k = if k = id then some r else dbLookup db k := by
  induction db with
  | nil =>
      by_cases hk : k = id
      · simp [dbPut, dbLookup, hk]
      · have hk' : ¬ id = k := fun h => hk h.symm
        simp [dbPut, dbLookup, hk, hk']
  | cons kv rest ih =>
      obtain ⟨k', v⟩ := kv
      by_cases h1 : k' = id
      · subst h1
        by_cases hk : k = k'
        · simp [dbPut, dbLookup, hk]
        · have hk' : ¬ k' = k := fun h => hk h.symm
          simp [dbPut, dbLookup, hk, hk']
      · by_cases hk2 : k' = k
        · have hki : ¬ k = id := by
            rw [← hk2]
            exact h1
          simp [dbPut, dbLookup, h1, hk2, hki]
        · simp [dbPut, dbLookup, h1, hk2, ih]

theorem dbWellKeyed_put (db : Db) (id : String) (r : PenguinEntity)
    (h : DbWellKeyed db) (hr : r.id = id) : DbWellKeyed (dbPut db id r) := by
  intro k r' hk
  rw [dbLookup_dbPut] at hk
  by_cases hki : k = id
  · rw [if_pos hki] at hk
    cases hk
    rw [hr, hki]
  · rw [if_neg hki] at hk
    exact h k r' hk

theorem dbWellKeyed_visitHandler (s : ServerState) (id : String) (ok : Bool)
    (h : DbWellKeyed s.db) : DbWellKeyed (visitHandler id ok s).state.db := by
  unfold visitHandler
  by_cases he : penguinExists s.penguins id
  · by_cases hok : ok
    · simp only [he, hok, if_true]
      exact dbWellKeyed_put s.db id _ h (dbGetPenguin_id s.db h id)
    · simp only [he, hok, if_true, if_false]
      exact h
  · simp only [he, if_false]
    exact h

theorem dbWellKeyed_fishHandler (s : ServerState) (id : String) (ok : Bool)
    (h : DbWellKeyed s.db) : DbWellKeyed (fishHandler id ok s).state.db := by
  unfold fishHandler
  by_cases he : penguinExists s.penguins id
  · by_cases hok : ok
    · simp only [he, hok, if_true]
      exact dbWellKeyed_put s.db id _ h (dbGetPenguin_id s.db h id)
    · simp only [he, hok, if_true, if_false]
      exact h
  · simp only [he, if_false]
    exact h

theorem dbWellKeyed_bellyrubHandler (s : ServerState) (id : String) (ok : Bool)
    (h : DbWellKeyed s.db) : DbWellKeyed (bellyrubHandler id ok s).state.db := by
  unfold bellyrubHandler
  by_cases he : penguinExists s.penguins id
  · by_cases hok : ok
    · simp only [he, hok, if_true]
      exact dbWellKeyed_put s.db id _ h (dbGetPenguin_id s.db h id)
    · simp only [he, hok, if_true, if_false]
      exact h
  · simp only [he, if_false]
    exact h

/-- C10: in every reachable state, every stored datastore record's `Id`
field equals the key it is stored under, and hence `dbGetPenguin` always
returns a record whose `Id` equals the requested id, stored or not. -/
theorem reachable_db_wellKeyed (roster : List Penguin) (t0 : Int)
    (s : ServerState) (h : Reachable roster t0 s) :
    DbWellKeyed s.db ∧ ∀ id, (dbGetPenguin s.db id).id = id := by
  have hwk : DbWellKeyed s.db := by
    induction h with
    | init =>
        intro k r hk
        simp [dbLookup] at hk
    | step s op hs ih =>
        cases op with
        | visit id ok => exact dbWellKeyed_visitHandler s id ok ih
        | fish id ok => exact dbWellKeyed_fishHandler s id ok ih
        | bellyrub id ok => exact dbWellKeyed_bellyrubHandler s id ok ih
        | refresh now =>
            have : (updatePenguinsStatistics now s).db = s.db := by
              unfold updatePenguinsStatistics
              split <;> rfl
            simpa [applyOp, this] using ih
        | forceUpdate now => exact ih
  exact ⟨hwk, fun id => dbGetPenguin_id s.db hwk id⟩

/-- C10 witness: after one successful visit from startup, the record read
back for `"p1"` is stamped with `"p1"`. -/
theorem reachable_db_wellKeyed_witness :
    (dbGetPenguin (applyOp (Op.visit "p1" true)
        { penguins := [pingu], lastUpdateTime := 0 - 20 * nsPerMinute
          db := [] }).db "p1").id = "p1" :=
  (reachable_db_wellKeyed [pingu] 0 _
    (Reachable.step _ (Op.visit "p1" true) Reachable.init)).2 "p1"
